import Mathlib

/-!
# Verification of synapse's user-auth rule engine and dispatch reactor

Shallow embedding of `synapse/lib/userauth.py`, `synapse/reactor.py` and the
parts of their collaborators they rely on (the tuple store, the property
caches, and the event bus, which are outside the excerpt and are modelled
from the design document's interface descriptions).

All embeddings target CPython on a POSIX platform, where
`os.path.normcase` (applied by `fnmatch.fnmatch` to both arguments) is the
identity.
-/

namespace Synapse

/-! ## Shell glob matching (`fnmatch.fnmatch`)

`Rules.allow` evaluates `fnmatch.fnmatch(perm, rule)`: the rule is a shell
glob (`*` any run of characters, `?` one character, `[...]`/`[!...]`
character classes; everything else literal; the whole permission string
must be consumed).  `fnmatch.translate` compiles with `(?ms)`, so `*` and
`?` also cross newlines.  A degenerate reversed range such as `[z-a]`
(rejected at regex-compile time by CPython) is modelled as matching
nothing; well-formedness of ranges is tracked separately by `globWF`. -/

/-- Scan a character-class body up to the first unescaped `]`; returns the
body and the remainder of the pattern, or `none` when the class is never
closed (in which case `fnmatch` treats the `[` as a literal). -/
def scanClass : List Char → Option (List Char × List Char)
  | [] => none
  | c :: rest =>
    if c = ']' then some ([], rest)
    else (scanClass rest).map (fun p => (c :: p.1, p.2))

/-- `fnmatch.translate`'s bracket scan skips a leading `!` and a `]`
standing right after it (or right after the `[`): those characters belong
to the class body rather than terminating it. -/
def classSkip : List Char → Nat
  | '!' :: ']' :: _ => 2
  | '!' :: _ => 1
  | ']' :: _ => 1
  | _ => 0

/-- Split the pattern following a `[` into the class body and the rest of
the pattern, or `none` when the class is never closed (in which case
`fnmatch` treats the `[` as a literal). -/
def splitClass (l : List Char) : Option (List Char × List Char) :=
  (scanClass (l.drop (classSkip l))).map
    (fun p => (l.take (classSkip l) ++ p.1, p.2))

theorem scanClass_length : ∀ {l b r : List Char}, scanClass l = some (b, r) →
    r.length < l.length := by
  intro l
  induction l with
  | nil => intro b r h; simp [scanClass] at h
  | cons c rest ih =>
    intro b r h
    rw [scanClass] at h
    split at h
    · simp at h
      simp [← h.2]
    · cases hsc : scanClass rest with
      | none => rw [hsc] at h; simp at h
      | some p =>
        rw [hsc] at h
        simp at h
        have := ih (show scanClass rest = some (p.1, p.2) by rw [hsc])
        simp [← h.2]
        omega

theorem splitClass_length : ∀ {l b r : List Char}, splitClass l = some (b, r) →
    r.length < l.length := by
  intro l b r h
  unfold splitClass at h
  cases hsc : scanClass (l.drop (classSkip l)) with
  | none => rw [hsc] at h; simp at h
  | some p =>
    rw [hsc] at h
    simp at h
    have h1 := scanClass_length (show scanClass (l.drop (classSkip l)) = some (p.1, p.2) by rw [hsc])
    have h2 : (l.drop (classSkip l)).length ≤ l.length := by
      simp
    rw [← h.2]
    omega

/-- Membership of a character in a (non-negated) class body, with `a-b`
ranges exactly as the compiled regex character class interprets them. -/
def classMatch : List Char → Char → Bool
  | a :: '-' :: b :: rest, c =>
    if a ≤ c ∧ c ≤ b then true else classMatch rest c
  | a :: rest, c => if a = c then true else classMatch rest c
  | [], _ => false

/-- A class body is well formed when every `a-b` range satisfies `a ≤ b`
(CPython's regex compiler rejects reversed ranges outright). -/
def classWF : List Char → Bool
  | a :: '-' :: b :: rest => decide (a ≤ b) && classWF rest
  | _ :: rest => classWF rest
  | [] => true

/-- A glob pattern is well formed when every closed character class in it
has a well-formed body. -/
def globWF (p : List Char) : Bool :=
  match p with
  | [] => true
  | '[' :: ps =>
    match h : splitClass ps with
    | some (body, rest) =>
      (match body with
       | '!' :: body2 => classWF body2
       | _ => classWF body) && globWF rest
    | none => globWF ps
  | _ :: ps => globWF ps
termination_by p.length
decreasing_by
  all_goals simp_wf
  all_goals first
    | omega
    | (have hsp := splitClass_length h; omega)

/-- Core glob matcher: `globMatch pat name` decides whether the whole of
`name` matches the whole of `pat`, with `fnmatch.translate`'s treatment of
`*`, `?`, classes and an unclosed `[` (a literal). -/
def globMatch : List Char → List Char → Bool
  | [], [] => true
  | [], _ :: _ => false
  | '*' :: ps, s =>
    globMatch ps s ||
      (match s with
       | [] => false
       | _ :: s2 => globMatch ('*' :: ps) s2)
  | '?' :: ps, s =>
    (match s with
     | [] => false
     | _ :: s2 => globMatch ps s2)
  | '[' :: ps, s =>
    (match splitClass ps with
     | some (body, rest) =>
       (match s with
        | [] => false
        | c :: s2 =>
          (match body with
           | '!' :: body2 => !(classMatch body2 c)
           | _ => classMatch body c) && globMatch rest s2)
     | none =>
       (match s with
        | [] => false
        | c :: s2 => (c = '[') && globMatch ps s2))
  | a :: ps, s =>
    (match s with
     | [] => false
     | c :: s2 => (a = c) && globMatch ps s2)
termination_by p s => (s.length, p.length)
decreasing_by
  all_goals simp_wf
  · exact Prod.Lex.right _ (by omega)
  · exact Prod.Lex.left _ _ (by omega)
  · exact Prod.Lex.left _ _ (by omega)
  · exact Prod.Lex.left _ _ (by omega)
  · exact Prod.Lex.left _ _ (by omega)
  · exact Prod.Lex.left _ _ (by omega)

/-- Embedding of `fnmatch.fnmatch(name, pat)` on POSIX (where `normcase`
is the identity). -/
def fnmatch (name pat : String) : Bool :=
  globMatch pat.data name.data

/-! ## Exceptions

Mirror of the `synapse.exc` classes raised by `userauth.py`, plus
Python's built-in `NameError`. -/

inductive Err where
  | dupUser (user : String)
  | dupRole (role : String)
  | noSuchUser (user : String)
  | noSuchRole (role : String)
  | nameError (name : String)
deriving DecidableEq, Repr

/-! ## The `Rules` class (per-user decision cache) -/

/-- State of one `Rules` object: the subject name, the rule list last
fetched from (or pushed by) the auth store, and `self.cache`, the
permission → decision dict, modelled as an association list in which the
most recent insertion shadows older ones. -/
structure Rules where
  user : String
  rules : List String
  cache : List (String × Bool)
deriving DecidableEq, Repr

/-- `Rules.__init__`: the decision cache starts empty and the rule list is
the one `auth.getUserRules(user)` returns at construction time (computed
by the caller, as in `UserAuth._getUserRulesCache`). -/
def Rules.init (user : String) (rules : List String) : Rules :=
  { user := user, rules := rules, cache := [] }

/-- The scan loop inside `Rules.allow`: rules are tried in order and the
first glob match wins; no match (in particular an empty list) denies. -/
def scanRules : List String → String → Bool
  | [], _ => false
  | r :: rs, perm => if fnmatch perm r then true else scanRules rs perm

/-- `Rules.allow(perm)`: serve the cached decision when one is present,
otherwise scan the rule list, record the decision in the cache and return
it.  The updated object state is returned alongside the decision. -/
def Rules.allow (rs : Rules) (perm : String) : Bool × Rules :=
  match rs.cache.lookup perm with
  | some ret => (ret, rs)
  | none =>
    let ret := scanRules rs.rules perm
    (ret, { rs with cache := (perm, ret) :: rs.cache })

/-- `Rules._onBumpUser`: a directed `auth:bump:<user>` event carries the
new rule list in its payload; the object adopts it and clears the
decision cache. -/
def Rules.onBumpUser (rs : Rules) (rules : List String) : Rules :=
  { rs with rules := rules, cache := [] }

/-- `Rules._onTeleSock`, the `tele:sock:init` reconnect handler.  Its body
is `self.rules = self.auth.getUserRules(user)`, but the bare name `user`
is neither a local, nor a parameter, nor a module global of `userauth.py`
(none of its star imports bind one), so CPython raises `NameError` before
`self.rules` is reassigned and before `self.cache.clear()` runs; the
object state is unchanged. -/
def Rules.onTeleSock (rs : Rules) : Except Err Rules :=
  Except.error (Err.nameError "user")

/-! ## The `UserAuth` store

The tuple store (`Cortex`) and the cache helpers (`TufoPropCache`,
`KeyCache`) live outside the excerpt.  Modelled from the spec: the store
durably holds `auth:user` and `auth:role` tufos unique by name,
list-valued `auth:rules` properties supporting append and remove of
individual values, and `auth:userrole` link tufos returned in store
order; the property caches are write-through views of the store, so
`users.get` / `roles.get` coincide with a store lookup by name. -/

/-- A tufo reference as handed back to callers: its form and its primary
value (the subject name).  Further properties play no role in the claims
under verification. -/
structure Tufo where
  form : String
  valu : String
deriving DecidableEq, Repr

/-- Modelled from the spec: the tuple store's contents that `UserAuth`
reads and writes — user and role names, the `auth:rules` list of each
subject, and the `auth:userrole` links in store order. -/
structure Core where
  userNames : List String
  roleNames : List String
  userRules : String → List String
  roleRules : String → List String
  userRoles : List (String × String)

/-- A directed `rules-changed` notification: `auth:bump:<user>` fired on
the `UserAuth` event bus, carrying the new effective rule list. -/
structure Evt where
  user : String
  rules : List String
deriving DecidableEq, Repr

/-- The `UserAuth` object: the backing store plus `self.rules`, the
`KeyCache` of per-user `Rules` objects. -/
structure UserAuth where
  core : Core
  rulesCache : List (String × Rules)

/-- `self.users.get(name)` (write-through `TufoPropCache` over
`auth:user` tufos). -/
def UserAuth.usersGet (a : UserAuth) (u : String) : Option Tufo :=
  if u ∈ a.core.userNames then some ⟨"auth:user", u⟩ else none

/-- `self.roles.get(name)` (write-through `TufoPropCache` over
`auth:role` tufos). -/
def UserAuth.rolesGet (a : UserAuth) (r : String) : Option Tufo :=
  if r ∈ a.core.roleNames then some ⟨"auth:role", r⟩ else none

/-- `UserAuth._reqUserTufo`: the user's tufo, or `NoSuchUser`. -/
def UserAuth.reqUserTufo (a : UserAuth) (u : String) : Except Err Tufo :=
  match a.usersGet u with
  | none => Except.error (Err.noSuchUser u)
  | some t => Except.ok t

/-- `UserAuth._reqRoleTufo`: the role's tufo, or `NoSuchRole`. -/
def UserAuth.reqRoleTufo (a : UserAuth) (r : String) : Except Err Tufo :=
  match a.rolesGet r with
  | none => Except.error (Err.noSuchRole r)
  | some t => Except.ok t

/-- `UserAuth.getUser`: a user tufo or `None` by name. -/
def UserAuth.getUser (a : UserAuth) (u : String) : Option Tufo :=
  a.usersGet u

/-- `UserAuth.getRole`: its Python body consists solely of the docstring
("Return a role tufo or None by name."), so the function returns `None`
for every input, existing role or not. -/
def UserAuth.getRole (a : UserAuth) (r : String) : Option Tufo :=
  none

/-- `UserAuth.addUser`: `DupUser` when the name already exists, otherwise
form the `auth:user` tufo in the store and return it. -/
def UserAuth.addUser (a : UserAuth) (u : String) : Except Err (UserAuth × Tufo) :=
  match a.usersGet u with
  | some _ => Except.error (Err.dupUser u)
  | none =>
    Except.ok ({ a with core := { a.core with userNames := a.core.userNames ++ [u] } },
      ⟨"auth:user", u⟩)

/-- `UserAuth.addRole`: `DupRole` when the name already exists, otherwise
form the `auth:role` tufo in the store and return it. -/
def UserAuth.addRole (a : UserAuth) (r : String) : Except Err (UserAuth × Tufo) :=
  match a.rolesGet r with
  | some _ => Except.error (Err.dupRole r)
  | none =>
    Except.ok ({ a with core := { a.core with roleNames := a.core.roleNames ++ [r] } },
      ⟨"auth:role", r⟩)

/-- The `for userrole in ...` loop of `getUserRules`: extend the rule list
with each linked role's rules, links in the order the store returns
them. -/
def extendRoleRules (c : Core) : List (String × String) → List String → List String
  | [], rules => rules
  | link :: rest, rules => extendRoleRules c rest (rules ++ c.roleRules link.2)

/-- `UserAuth.getUserRules`: the user's own `auth:rules` list followed by
each linked role's rules (`NoSuchUser` when the user does not exist). -/
def UserAuth.getUserRules (a : UserAuth) (u : String) : Except Err (List String) :=
  match a.reqUserTufo u with
  | Except.error e => Except.error e
  | Except.ok _ =>
    Except.ok (extendRoleRules a.core (a.core.userRoles.filter (fun l => l.1 = u))
      (a.core.userRules u))

/-- The spec's "effective rule set for a user": own rules ++ the rules of
every role the user holds, role links in store order. -/
def effectiveRules (c : Core) (u : String) : List String :=
  c.userRules u ++ (c.userRoles.filter (fun l => l.1 = u)).flatMap (fun l => c.roleRules l.2)

/-- Synchronous dispatch of `self.fire('auth:bump:<user>', rules=rules)`
(modelled from the spec's event bus: handlers run before `fire` returns):
the `Rules` object subscribed to that user, when the `KeyCache` holds one,
runs `_onBumpUser`. -/
def UserAuth.fireBump (a : UserAuth) (u : String) (rules : List String) : UserAuth :=
  { a with rulesCache := (a.rulesCache.map
      (fun e => if e.1 = u then (e.1, e.2.onBumpUser rules) else e)) }

/-- `UserAuth._bumpUserRules`: re-read the user's effective rules and fire
the directed `auth:bump:<user>` notification with them. -/
def UserAuth.bumpUserRules (a : UserAuth) (u : String) :
    Except Err (UserAuth × List Evt) :=
  match a.getUserRules u with
  | Except.error e => Except.error e
  | Except.ok rules => Except.ok (a.fireBump u rules, [⟨u, rules⟩])

/-- `UserAuth.addUserRule`: require the user tufo, append the rule to the
user's `auth:rules` list, then bump the user. -/
def UserAuth.addUserRule (a : UserAuth) (u rule : String) :
    Except Err (UserAuth × List Evt) :=
  match a.reqUserTufo u with
  | Except.error e => Except.error e
  | Except.ok _ =>
    UserAuth.bumpUserRules
      { a with core := { a.core with userRules :=
        (fun x => if x = u then a.core.userRules u ++ [rule] else a.core.userRules x) } }
      u

/-- `UserAuth.delUserRule`: require the user tufo, remove the rule value
from the user's `auth:rules` list (`delTufoListValu`, modelled from the
spec's "remove of individual values"), then bump the user. -/
def UserAuth.delUserRule (a : UserAuth) (u rule : String) :
    Except Err (UserAuth × List Evt) :=
  match a.reqUserTufo u with
  | Except.error e => Except.error e
  | Except.ok _ =>
    UserAuth.bumpUserRules
      { a with core := { a.core with userRules :=
        (fun x => if x = u then (a.core.userRules u).filter (fun v => v != rule)
                  else a.core.userRules x) } }
      u

/-- The `for userrole in ...: self._bumpUserRules(user)` loop of the role
rule operations. -/
def UserAuth.bumpUsers (a : UserAuth) : List String → Except Err (UserAuth × List Evt)
  | [] => Except.ok (a, [])
  | u :: rest =>
    match a.bumpUserRules u with
    | Except.error e => Except.error e
    | Except.ok (a1, evts1) =>
      match UserAuth.bumpUsers a1 rest with
      | Except.error e => Except.error e
      | Except.ok (a2, evts2) => Except.ok (a2, evts1 ++ evts2)

/-- `UserAuth.addRoleRule`: require the role tufo, append the rule to the
role's `auth:rules` list, then bump every user currently linked to the
role (links in store order). -/
def UserAuth.addRoleRule (a : UserAuth) (role rule : String) :
    Except Err (UserAuth × List Evt) :=
  match a.reqRoleTufo role with
  | Except.error e => Except.error e
  | Except.ok _ =>
    UserAuth.bumpUsers
      { a with core := { a.core with roleRules :=
        (fun x => if x = role then a.core.roleRules role ++ [rule] else a.core.roleRules x) } }
      ((a.core.userRoles.filter (fun l => l.2 = role)).map (fun l => l.1))

/-- `UserAuth.delRoleRule`: require the role tufo, remove the rule value
from the role's `auth:rules` list, then bump every user currently linked
to the role. -/
def UserAuth.delRoleRule (a : UserAuth) (role rule : String) :
    Except Err (UserAuth × List Evt) :=
  match a.reqRoleTufo role with
  | Except.error e => Except.error e
  | Except.ok _ =>
    UserAuth.bumpUsers
      { a with core := { a.core with roleRules :=
        (fun x => if x = role then (a.core.roleRules role).filter (fun v => v != rule)
                  else a.core.roleRules x) } }
      ((a.core.userRoles.filter (fun l => l.2 = role)).map (fun l => l.1))

/-- `self.rules.get(user)`.  Modelled from the spec: the `KeyCache`
"delegates to that user's Rule Cache entry (creating one on first use)",
and creating one runs `UserAuth._getUserRulesCache`, i.e.
`Rules(self, user)`, whose constructor fetches `getUserRules(user)`. -/
def UserAuth.rulesGet (a : UserAuth) (u : String) :
    Except Err (Rules × UserAuth) :=
  match a.rulesCache.lookup u with
  | some rs => Except.ok (rs, a)
  | none =>
    match a.getUserRules u with
    | Except.error e => Except.error e
    | Except.ok rules =>
      Except.ok (Rules.init u rules,
        { a with rulesCache := (u, Rules.init u rules) :: a.rulesCache })

/-- Persist the (in Python, mutated-in-place) `Rules` object back into the
`KeyCache` entry it came from. -/
def UserAuth.putRules (a : UserAuth) (u : String) (rs : Rules) : UserAuth :=
  { a with rulesCache := a.rulesCache.map (fun e => if e.1 = u then (e.1, rs) else e) }

/-- `UserAuth.isUserAllowed`: delegate to the user's `Rules` object. -/
def UserAuth.isUserAllowed (a : UserAuth) (u perm : String) :
    Except Err (Bool × UserAuth) :=
  match a.rulesGet u with
  | Except.error e => Except.error e
  | Except.ok (rs, a1) => Except.ok ((rs.allow perm).1, a1.putRules u (rs.allow perm).2)

/-! ## The `Reactor` (one-name-one-handler dispatch table) -/

/-- Errors surfaced by `Reactor.react`: `NoSuchAct` for an unregistered
message kind, or an exception the handler itself raised (propagated to
the caller unmodified). -/
inductive ReactOut (β ε : Type) where
  | ok (v : β)
  | handlerErr (e : ε)
  | noSuchAct (name : String)
deriving DecidableEq, Repr

/-- `Reactor`: `self.actfuncs`, a dict from message kind to the single
registered handler, modelled as an association list where the most recent
registration shadows older ones.  A message is a tufo `(kind, payload)`;
a handler either returns a value or raises. -/
structure Reactor (κ β ε : Type) where
  actfuncs : List (String × (String × κ → Except ε β))

/-- `Reactor.act(name, func)`: register (or overwrite) the handler for a
message kind. -/
def Reactor.act (r : Reactor κ β ε) (name : String) (f : String × κ → Except ε β) :
    Reactor κ β ε :=
  { actfuncs := (name, f) :: r.actfuncs }

/-- `Reactor.react(mesg)`: look up the handler for `mesg[0]`; raise
`NoSuchAct` when none is registered, otherwise return the handler's
result, letting a handler exception propagate unmodified. -/
def Reactor.react (r : Reactor κ β ε) (m : String × κ) : ReactOut β ε :=
  match r.actfuncs.lookup m.1 with
  | none => ReactOut.noSuchAct m.1
  | some f =>
    match f m with
    | Except.ok v => ReactOut.ok v
    | Except.error e => ReactOut.handlerErr e

/-! ## Concrete states used to exercise the theorems -/

/-- A small store: user `visi` holds role `admin`; `visi` owns rule
`own.*`, `admin` carries `adm.*`, and `ops` is a second role with rule
`ops.*` that `visi` also holds. -/
def coreEx : Core :=
  { userNames := ["visi"]
    roleNames := ["admin", "ops"]
    userRules := fun u => if u = "visi" then ["own.*"] else []
    roleRules := fun r => if r = "admin" then ["adm.*"] else if r = "ops" then ["ops.*"] else []
    userRoles := [("visi", "admin"), ("visi", "ops")] }

/-- The auth object over `coreEx`, with no `Rules` objects built yet. -/
def authEx : UserAuth := { core := coreEx, rulesCache := [] }

/-! ## Helper lemmas -/

theorem scanRules_iff (R : List String) (p : String) :
    scanRules R p = true ↔ ∃ r ∈ R, fnmatch p r = true := by
  induction R with
  | nil => simp [scanRules]
  | cons r rs ih =>
    by_cases hr : fnmatch p r = true
    · simp [scanRules, hr]
    · simp only [Bool.not_eq_true] at hr
      simp [scanRules, hr, ih]

theorem allow_init (u : String) (R : List String) (p : String) :
    (Rules.init u R).allow p = (scanRules R p, ⟨u, R, [(p, scanRules R p)]⟩) := rfl

theorem extendRoleRules_eq (c : Core) (links : List (String × String)) (init : List String) :
    extendRoleRules c links init = init ++ links.flatMap (fun l => c.roleRules l.2) := by
  induction links generalizing init with
  | nil => simp [extendRoleRules]
  | cons l rest ih => simp [extendRoleRules, ih]

theorem reqUserTufo_ok (a : UserAuth) (u : String) (h : u ∈ a.core.userNames) :
    a.reqUserTufo u = Except.ok ⟨"auth:user", u⟩ := by
  simp [UserAuth.reqUserTufo, UserAuth.usersGet, h]

theorem reqUserTufo_err (a : UserAuth) (u : String) (h : u ∉ a.core.userNames) :
    a.reqUserTufo u = Except.error (Err.noSuchUser u) := by
  simp [UserAuth.reqUserTufo, UserAuth.usersGet, h]

theorem reqRoleTufo_ok (a : UserAuth) (r : String) (h : r ∈ a.core.roleNames) :
    a.reqRoleTufo r = Except.ok ⟨"auth:role", r⟩ := by
  simp [UserAuth.reqRoleTufo, UserAuth.rolesGet, h]

theorem reqRoleTufo_err (a : UserAuth) (r : String) (h : r ∉ a.core.roleNames) :
    a.reqRoleTufo r = Except.error (Err.noSuchRole r) := by
  simp [UserAuth.reqRoleTufo, UserAuth.rolesGet, h]

theorem getUserRules_ok (a : UserAuth) (u : String) (h : u ∈ a.core.userNames) :
    a.getUserRules u = Except.ok (effectiveRules a.core u) := by
  simp [UserAuth.getUserRules, reqUserTufo_ok a u h, extendRoleRules_eq, effectiveRules]

theorem getUserRules_err (a : UserAuth) (u : String) (h : u ∉ a.core.userNames) :
    a.getUserRules u = Except.error (Err.noSuchUser u) := by
  simp [UserAuth.getUserRules, reqUserTufo_err a u h]

theorem bumpUserRules_ok (a : UserAuth) (u : String) (h : u ∈ a.core.userNames) :
    a.bumpUserRules u = Except.ok (a.fireBump u (effectiveRules a.core u),
      [⟨u, effectiveRules a.core u⟩]) := by
  simp [UserAuth.bumpUserRules, getUserRules_ok a u h]

theorem fireBump_core (a : UserAuth) (u : String) (rl : List String) :
    (a.fireBump u rl).core = a.core := rfl

theorem lookup_fireBump (l : List (String × Rules)) (u : String) (rl : List String) :
    (l.map (fun e => if e.1 = u then (e.1, e.2.onBumpUser rl) else e)).lookup u
      = (l.lookup u).map (fun rs => rs.onBumpUser rl) := by
  induction l with
  | nil => simp
  | cons e rest ih =>
    obtain ⟨k, v⟩ := e
    by_cases hk : k = u
    · subst hk
      rw [List.map_cons, if_pos rfl]
      simp [List.lookup]
    · rw [List.map_cons, if_neg hk]
      simp [List.lookup, beq_false_of_ne (Ne.symm hk), ih]

/-! ## Claim theorems -/

/-- **C1**: for every ordered list of (well-formed) glob rules `R` and
permission `p`, `Rules.allow p` on a freshly built `Rules` object returns
`true` iff some rule in `R` glob-matches `p` (the scan visits `R` in order
and stops at the first match); with empty `R`, or no matching rule, it
returns `false`. -/
theorem rules_allow_iff_glob_match (u : String) (R : List String) (p : String)
    (hwf : R.all (fun r => globWF r.data) = true) :
    ((Rules.init u R).allow p).1 = true ↔ ∃ r ∈ R, fnmatch p r = true := by
  rw [allow_init]
  exact scanRules_iff R p

/-- Witness for C1 at a concrete input: rules `["hehe.*"]` allow
permission `hehe.haha`. -/
theorem rules_allow_iff_glob_match_witness :
    ((Rules.init "visi" ["hehe.*"]).allow "hehe.haha").1 = true :=
  (rules_allow_iff_glob_match "visi" ["hehe.*"] "hehe.haha"
    (by simp [globWF, splitClass, scanClass, classSkip, classWF])).mpr
    ⟨"hehe.*", by simp,
      by simp [fnmatch, globMatch, splitClass, scanClass, classSkip, classMatch]⟩

/-- **C6**: `Rules.allow` returns the cached decision when one is present
(leaving the object untouched); on a miss it computes the decision by the
rule scan, stores it, and returns it; and an immediately repeated call
returns the same decision, now from the cache, without further change. -/
theorem rules_allow_cache_contract (rs : Rules) (p : String) :
    (∀ b, rs.cache.lookup p = some b → rs.allow p = (b, rs)) ∧
    (rs.cache.lookup p = none →
      rs.allow p = (scanRules rs.rules p,
        { rs with cache := (p, scanRules rs.rules p) :: rs.cache })) ∧
    (rs.allow p).2.allow p = ((rs.allow p).1, (rs.allow p).2) := by
  refine ⟨?_, ?_, ?_⟩
  · intro b hb
    simp [Rules.allow, hb]
  · intro hn
    simp [Rules.allow, hn]
  · cases hb : rs.cache.lookup p with
    | some b => simp [Rules.allow, hb]
    | none => simp [Rules.allow, hb, List.lookup]

/-- Witness for C6 at a concrete input: for a fresh `Rules` object over
`["hehe.*"]` the repeated `allow` call returns the first call's decision
and leaves the state unchanged. -/
theorem rules_allow_cache_contract_witness :
    ((Rules.init "visi" ["hehe.*"]).allow "lol").2.allow "lol"
      = (((Rules.init "visi" ["hehe.*"]).allow "lol").1,
         ((Rules.init "visi" ["hehe.*"]).allow "lol").2) :=
  (rules_allow_cache_contract (Rules.init "visi" ["hehe.*"]) "lol").2.2

/-- **C5**: for an existing user, `getUserRules` returns exactly the
user's own rules followed by the rules of each role the user holds, the
roles in the order the store returns the `auth:userrole` links. -/
theorem getUserRules_effective (a : UserAuth) (u : String) (h : u ∈ a.core.userNames) :
    a.getUserRules u = Except.ok (effectiveRules a.core u) :=
  getUserRules_ok a u h

/-- Witness for C5 at a concrete input: `visi`'s effective rules are its
own rule followed by `admin`'s and then `ops`'s rules. -/
theorem getUserRules_effective_witness :
    authEx.getUserRules "visi" = Except.ok ["own.*", "adm.*", "ops.*"] := by
  rw [getUserRules_effective authEx "visi" (by simp [authEx, coreEx])]
  simp [effectiveRules, authEx, coreEx]

/-! ### `isUserAllowed` helper lemmas -/

theorem isUserAllowed_cached (a : UserAuth) (u p : String) (rs : Rules)
    (hl : a.rulesCache.lookup u = some rs) :
    a.isUserAllowed u p = Except.ok ((rs.allow p).1, a.putRules u (rs.allow p).2) := by
  unfold UserAuth.isUserAllowed UserAuth.rulesGet
  rw [hl]

theorem isUserAllowed_uncached (a : UserAuth) (u p : String)
    (hl : a.rulesCache.lookup u = none) (h : u ∈ a.core.userNames) :
    ∃ a2, a.isUserAllowed u p
      = Except.ok (scanRules (effectiveRules a.core u) p, a2) := by
  refine ⟨UserAuth.putRules
    { a with rulesCache := (u, Rules.init u (effectiveRules a.core u)) :: a.rulesCache }
    u ⟨u, effectiveRules a.core u, [(p, scanRules (effectiveRules a.core u) p)]⟩, ?_⟩
  unfold UserAuth.isUserAllowed UserAuth.rulesGet
  rw [hl, getUserRules_ok a u h]
  rfl

theorem isUserAllowed_bumped (a : UserAuth) (u p : String) (rs0 : Rules) (R : List String)
    (hl : a.rulesCache.lookup u = some (rs0.onBumpUser R)) :
    a.isUserAllowed u p = Except.ok (scanRules R p,
      a.putRules u ((rs0.onBumpUser R).allow p).2) := by
  rw [isUserAllowed_cached a u p _ hl]
  rfl

/-- **C2**: after `addUserRule(u, r)` succeeds, an immediate
`isUserAllowed(u, p)` returns the decision computed (by the rule scan)
against `u`'s new effective rule list, which contains `r`: the directed
`auth:bump` invalidation runs synchronously inside the mutating call, so
no stale cached decision can be served. -/
theorem addUserRule_then_isUserAllowed (a : UserAuth) (u rule p : String)
    (h : u ∈ a.core.userNames) :
    ∃ a1 evts rl,
      a.addUserRule u rule = Except.ok (a1, evts) ∧
      a1.getUserRules u = Except.ok rl ∧
      rule ∈ rl ∧
      ∃ a2, a1.isUserAllowed u p = Except.ok (scanRules rl p, a2) := by
  unfold UserAuth.addUserRule
  rw [reqUserTufo_ok a u h]
  dsimp only
  rw [bumpUserRules_ok { a with core := { a.core with userRules :=
    (fun x => if x = u then a.core.userRules u ++ [rule] else a.core.userRules x) } } u h]
  exact ⟨_, _, _, rfl, getUserRules_ok _ u h,
    by simp [UserAuth.fireBump, effectiveRules],
    by
      cases hl : a.rulesCache.lookup u with
      | none =>
        refine isUserAllowed_uncached _ u p ?_ h
        simp only [UserAuth.fireBump]
        rw [lookup_fireBump, hl]
        rfl
      | some rs0 =>
        exact ⟨_, isUserAllowed_bumped _ u p rs0 _ (by
          simp only [UserAuth.fireBump]
          rw [lookup_fireBump, hl]
          rfl)⟩⟩

/-- Witness for C2 at a concrete input: granting `visi` the rule
`secret.*` makes an immediate check of `secret.x` follow the new list. -/
theorem addUserRule_then_isUserAllowed_witness :
    ∃ a1 evts rl,
      authEx.addUserRule "visi" "secret.*" = Except.ok (a1, evts) ∧
      a1.getUserRules "visi" = Except.ok rl ∧
      "secret.*" ∈ rl ∧
      ∃ a2, a1.isUserAllowed "visi" "secret.x"
        = Except.ok (scanRules rl "secret.x", a2) :=
  addUserRule_then_isUserAllowed authEx "visi" "secret.*" "secret.x"
    (by simp [authEx, coreEx])

/-- **C7**: `addUser`/`addRole` raise the duplicate-subject error when the
name already exists (begotten of a pure read, so the store is unchanged —
in this embedding an error result carries no new state), and otherwise
create and return the new subject tufo. -/
theorem addUser_addRole_unique (a : UserAuth) (n : String) :
    (n ∈ a.core.userNames → a.addUser n = Except.error (Err.dupUser n)) ∧
    (n ∉ a.core.userNames → ∃ a1, a.addUser n = Except.ok (a1, ⟨"auth:user", n⟩) ∧
      n ∈ a1.core.userNames) ∧
    (n ∈ a.core.roleNames → a.addRole n = Except.error (Err.dupRole n)) ∧
    (n ∉ a.core.roleNames → ∃ a1, a.addRole n = Except.ok (a1, ⟨"auth:role", n⟩) ∧
      n ∈ a1.core.roleNames) := by
  refine ⟨?_, ?_, ?_, ?_⟩
  · intro h
    simp [UserAuth.addUser, UserAuth.usersGet, h]
  · intro h
    refine ⟨{ a with core := { a.core with userNames := a.core.userNames ++ [n] } }, ?_, ?_⟩
    · simp [UserAuth.addUser, UserAuth.usersGet, h]
    · simp
  · intro h
    simp [UserAuth.addRole, UserAuth.rolesGet, h]
  · intro h
    refine ⟨{ a with core := { a.core with roleNames := a.core.roleNames ++ [n] } }, ?_, ?_⟩
    · simp [UserAuth.addRole, UserAuth.rolesGet, h]
    · simp

/-- Witness for C7 at concrete inputs: re-adding `visi` or `admin` fails
with the duplicate error; adding the fresh name `root` succeeds. -/
theorem addUser_addRole_unique_witness :
    authEx.addUser "visi" = Except.error (Err.dupUser "visi") ∧
    authEx.addRole "admin" = Except.error (Err.dupRole "admin") ∧
    ∃ a1, authEx.addUser "root" = Except.ok (a1, ⟨"auth:user", "root"⟩) ∧
      "root" ∈ a1.core.userNames :=
  ⟨(addUser_addRole_unique authEx "visi").1 (by simp [authEx, coreEx]),
   (addUser_addRole_unique authEx "admin").2.2.1 (by simp [authEx, coreEx]),
   (addUser_addRole_unique authEx "root").2.1 (by simp [authEx, coreEx])⟩

/-! ### Bump-loop helper lemma -/

theorem bumpUsers_ok : ∀ (us : List String) (a : UserAuth),
    (∀ x ∈ us, x ∈ a.core.userNames) →
    ∃ a2, a.bumpUsers us
        = Except.ok (a2, us.map (fun x => ⟨x, effectiveRules a.core x⟩)) ∧
      a2.core = a.core := by
  intro us
  induction us with
  | nil => intro a _; exact ⟨a, rfl, rfl⟩
  | cons x rest ih =>
    intro a h
    have hx : x ∈ a.core.userNames := h x (List.mem_cons_self x rest)
    obtain ⟨a2, h2, hc2⟩ := ih (a.fireBump x (effectiveRules a.core x)) (by
      intro y hy
      rw [fireBump_core]
      exact h y (List.mem_cons_of_mem x hy))
    refine ⟨a2, ?_, ?_⟩
    · rw [UserAuth.bumpUsers, bumpUserRules_ok a x hx]
      dsimp only
      rw [h2]
      simp [fireBump_core]
    · rw [hc2, fireBump_core]

/-- **C8**: each of the four rule mutators raises the not-found error when
its subject does not exist — the existence check precedes any store write
or notification, so in this embedding the error result carries neither —
and on success emits a directed `rules-changed` notification for the
user (for the user-scoped operations) respectively for every user
currently linked to the role (for the role-scoped operations), which
covers every user whose effective rule set changed. -/
theorem rule_ops_contract (a : UserAuth) (u ro rule : String) :
    (u ∉ a.core.userNames →
      a.addUserRule u rule = Except.error (Err.noSuchUser u) ∧
      a.delUserRule u rule = Except.error (Err.noSuchUser u)) ∧
    (ro ∉ a.core.roleNames →
      a.addRoleRule ro rule = Except.error (Err.noSuchRole ro) ∧
      a.delRoleRule ro rule = Except.error (Err.noSuchRole ro)) ∧
    (u ∈ a.core.userNames →
      (∃ a1 rl1, a.addUserRule u rule = Except.ok (a1, [⟨u, rl1⟩])) ∧
      (∃ a1 rl1, a.delUserRule u rule = Except.ok (a1, [⟨u, rl1⟩]))) ∧
    (ro ∈ a.core.roleNames →
      (∀ x ∈ (a.core.userRoles.filter (fun l => l.2 = ro)).map (fun l => l.1),
        x ∈ a.core.userNames) →
      (∃ a1 evts, a.addRoleRule ro rule = Except.ok (a1, evts) ∧
        evts.map Evt.user
          = (a.core.userRoles.filter (fun l => l.2 = ro)).map (fun l => l.1)) ∧
      (∃ a1 evts, a.delRoleRule ro rule = Except.ok (a1, evts) ∧
        evts.map Evt.user
          = (a.core.userRoles.filter (fun l => l.2 = ro)).map (fun l => l.1))) := by
  refine ⟨?_, ?_, ?_, ?_⟩
  · intro h
    constructor
    · unfold UserAuth.addUserRule
      rw [reqUserTufo_err a u h]
    · unfold UserAuth.delUserRule
      rw [reqUserTufo_err a u h]
  · intro h
    constructor
    · unfold UserAuth.addRoleRule
      rw [reqRoleTufo_err a ro h]
    · unfold UserAuth.delRoleRule
      rw [reqRoleTufo_err a ro h]
  · intro h
    constructor
    · unfold UserAuth.addUserRule
      rw [reqUserTufo_ok a u h]
      dsimp only
      rw [bumpUserRules_ok { a with core := { a.core with userRules :=
        (fun x => if x = u then a.core.userRules u ++ [rule] else a.core.userRules x) } } u h]
      exact ⟨_, _, rfl⟩
    · unfold UserAuth.delUserRule
      rw [reqUserTufo_ok a u h]
      dsimp only
      rw [bumpUserRules_ok { a with core := { a.core with userRules :=
        (fun x => if x = u then (a.core.userRules u).filter (fun v => v != rule)
                  else a.core.userRules x) } } u h]
      exact ⟨_, _, rfl⟩
  · intro h hall
    constructor
    · unfold UserAuth.addRoleRule
      rw [reqRoleTufo_ok a ro h]
      dsimp only
      obtain ⟨a2, h2, _⟩ := bumpUsers_ok
        ((a.core.userRoles.filter (fun l => l.2 = ro)).map (fun l => l.1))
        { a with core := { a.core with roleRules :=
          (fun x => if x = ro then a.core.roleRules ro ++ [rule] else a.core.roleRules x) } }
        hall
      rw [h2]
      refine ⟨_, _, rfl, ?_⟩
      simp [List.map_map, Function.comp]
    · unfold UserAuth.delRoleRule
      rw [reqRoleTufo_ok a ro h]
      dsimp only
      obtain ⟨a2, h2, _⟩ := bumpUsers_ok
        ((a.core.userRoles.filter (fun l => l.2 = ro)).map (fun l => l.1))
        { a with core := { a.core with roleRules :=
          (fun x => if x = ro then (a.core.roleRules ro).filter (fun v => v != rule)
                    else a.core.roleRules x) } }
        hall
      rw [h2]
      refine ⟨_, _, rfl, ?_⟩
      simp [List.map_map, Function.comp]

/-- Witness for C8 at concrete inputs: the mutators fail on the unknown
subject `ghost`; `addRoleRule` on `admin` notifies exactly the linked
user `visi`. -/
theorem rule_ops_contract_witness :
    authEx.addUserRule "ghost" "x.*" = Except.error (Err.noSuchUser "ghost") ∧
    authEx.delRoleRule "ghost" "x.*" = Except.error (Err.noSuchRole "ghost") ∧
    ∃ a1 evts, authEx.addRoleRule "admin" "x.*" = Except.ok (a1, evts) ∧
      evts.map Evt.user = ["visi"] := by
  refine ⟨((rule_ops_contract authEx "ghost" "ghost" "x.*").1 ?_).1,
    ((rule_ops_contract authEx "ghost" "ghost" "x.*").2.1 ?_).2, ?_⟩
  · simp [authEx, coreEx]
  · simp [authEx, coreEx]
  · obtain ⟨a1, evts, h1, h2⟩ :=
      ((rule_ops_contract authEx "visi" "admin" "x.*").2.2.2
        (by simp [authEx, coreEx])
        (by intro x hx; simp [authEx, coreEx] at hx ⊢; simp [hx])).1
    refine ⟨a1, evts, h1, ?_⟩
    rw [h2]
    simp [authEx, coreEx]

/-- **C9**: `Reactor.react` fails with `NoSuchAct` when no handler is
registered for the message's kind; otherwise it returns, unmodified, the
result of the most recently registered handler for that kind — a second
`act` registration overwrites the first, and a handler exception
propagates to the caller unmodified. -/
theorem reactor_contract {κ β ε : Type} (r : Reactor κ β ε) (n : String)
    (f g : String × κ → Except ε β) (m : String × κ) :
    (r.actfuncs.lookup m.1 = none → r.react m = ReactOut.noSuchAct m.1) ∧
    (m.1 = n →
      ((r.act n f).act n g).react m =
        match g m with
        | Except.ok v => ReactOut.ok v
        | Except.error e => ReactOut.handlerErr e) := by
  constructor
  · intro h
    unfold Reactor.react
    rw [h]
  · intro hm
    subst hm
    unfold Reactor.react Reactor.act
    simp [List.lookup]

/-- An empty reactor, as in `rtor = Reactor()`. -/
def rtorEx : Reactor Nat Nat Unit := { actfuncs := [] }

/-- Witness for C9 at concrete inputs: dispatching into the empty reactor
fails with `NoSuchAct`; after two registrations for `foo:bar` the second
handler (the docstring's `doFooBar`, returning `20 + x`) answers `50` for
`x = 30`. -/
theorem reactor_contract_witness :
    rtorEx.react ("foo:bar", 30) = ReactOut.noSuchAct "foo:bar" ∧
    ((rtorEx.act "foo:bar" (fun _ => Except.ok 0)).act "foo:bar"
      (fun m => Except.ok (20 + m.2))).react ("foo:bar", 30) = ReactOut.ok 50 := by
  constructor
  · exact (reactor_contract rtorEx "foo:bar" (fun _ => Except.ok 0)
      (fun m => Except.ok (20 + m.2)) ("foo:bar", 30)).1 (by simp [rtorEx, List.lookup])
  · have h := (reactor_contract rtorEx "foo:bar" (fun _ => Except.ok 0)
      (fun m => Except.ok (20 + m.2)) ("foo:bar", 30)).2 rfl
    simpa using h

/-- **C10**: for a user name with no user tufo (and no previously built
`Rules` object, i.e. on first use), `isUserAllowed` does not return a
deny decision: building the cache entry fetches the rule list via
`getUserRules`, whose `_reqUserTufo` raises `NoSuchUser`. -/
theorem isUserAllowed_unknown_user (a : UserAuth) (u p : String)
    (hc : a.rulesCache.lookup u = none) (h : u ∉ a.core.userNames) :
    a.isUserAllowed u p = Except.error (Err.noSuchUser u) := by
  unfold UserAuth.isUserAllowed UserAuth.rulesGet
  rw [hc, getUserRules_err a u h]

/-- Witness for C10 at a concrete input: checking a permission for the
unknown name `nobody` raises `NoSuchUser`. -/
theorem isUserAllowed_unknown_user_witness :
    authEx.isUserAllowed "nobody" "foo.bar" = Except.error (Err.noSuchUser "nobody") :=
  isUserAllowed_unknown_user authEx "nobody" "foo.bar" (by simp [authEx])
    (by simp [authEx, coreEx])

/-- **C3** (code bug): on a `tele:sock:init` reconnect signal the handler
`_onTeleSock` is meant to re-fetch the rule list and clear the decision
cache, but its body reads the unbound bare name `user` and therefore
raises `NameError` for every `Rules` object, re-fetching nothing and
clearing nothing. -/
theorem onTeleSock_raises_nameError (rs : Rules) :
    rs.onTeleSock = Except.error (Err.nameError "user") := rfl

/-- **C4** (code bug): `getRole` returns `None` even for a role that
exists (its Python body is only a docstring), contradicting both its own
docstring and the spec's contract that an existing role's tufo is
returned. -/
theorem getRole_none_for_existing (a : UserAuth) (r : String)
    (h : r ∈ a.core.roleNames) : a.getRole r = none := rfl

/-- Witness for C4 at a concrete input: `admin` exists in the store, yet
`getRole` returns `None`. -/
theorem getRole_none_for_existing_witness :
    "admin" ∈ authEx.core.roleNames ∧ authEx.getRole "admin" = none :=
  ⟨by simp [authEx, coreEx],
   getRole_none_for_existing authEx "admin" (by simp [authEx, coreEx])⟩

end Synapse
